import Mathlib

/-!
# Verification of `IterableWrapperIterDataPipe`
  (src/torch/utils/data/datapipes/iter/utils.py)

Shallow embedding of the single class in the file.  The Python object holds
four attributes, set in `__init__`:

* `iterable`  — the wrapped source container (held by reference; other
  holders of the same container may mutate it in place),
* `deepcopy`  — the copy policy flag (default `True`),
* `state_counter` — starts at 0, incremented at the top of `__next__`,
* `iter`      — `None` until a cursor is created.

We model the source container as a `List α` of current contents plus two
capability flags: `copyable` (whether `copy.deepcopy` succeeds — in Python a
non-copyable value makes `deepcopy` raise `TypeError`) and `sized` (whether
the container supports `len(...)` — otherwise Python's `len` raises
`TypeError`).  Caller mutation of the shared container is modelled by an
explicit external operation replacing `contents`.

`__iter__` is a generator: its body (which performs the deep copy attempt)
runs only when the first element is requested.  A cursor is therefore

* `fresh`  — generator object created, body not started, no copy made yet;
* `copied data pos` — body started with `deepcopy` succeeding: `data` is the
  snapshot taken at first request, iterated by position;
* `live pos` — body started without a copy (deepcopy off, or deepcopy failed
  with a warning): the original container is read at each step;
* `closed` — the generator raised `StopIteration`; it stays exhausted.
-/

namespace IterableWrapper

/-- The wrapped source container: its current contents plus whether it can be
deep-copied (`copy.deepcopy` succeeds) and whether it answers `len(...)`. -/
structure Iterable (α : Type) where
  contents : List α
  copyable : Bool
  sized : Bool
  deriving DecidableEq, Repr

/-- A live iteration cursor (the generator produced by `__iter__`). -/
inductive CursorState (α : Type) where
  | fresh : CursorState α
  | copied (data : List α) (pos : Nat) : CursorState α
  | live (pos : Nat) : CursorState α
  | closed : CursorState α
  deriving DecidableEq, Repr

/-- The instance state: the four attributes set in `__init__`. -/
structure DPState (α : Type) where
  iterable : Iterable α
  deepcopy : Bool
  state_counter : Nat
  iter : Option (CursorState α)
  deriving DecidableEq, Repr

/-- The result of `__getstate__`: `self.__dict__` minus the `iter` key,
i.e. every instance field except the cursor. -/
structure PickledState (α : Type) where
  iterable : Iterable α
  deepcopy : Bool
  state_counter : Nat
  deriving DecidableEq, Repr

variable {α : Type}

/-- `__init__(iterable, deepcopy=True)`: stores the source and policy, sets
`state_counter = 0` and `iter = None`. -/
def init (it : Iterable α) (dp : Bool) : DPState α :=
  { iterable := it, deepcopy := dp, state_counter := 0, iter := none }

/-- One pull on a cursor, given the container contents `world` at the moment
of the pull.  Returns the produced element (`none` = `StopIteration`), the
new cursor, and whether a deepcopy-failure warning was emitted on this pull.

On a `fresh` cursor the generator body runs: with `deepcopy` on and the
source copyable, a snapshot of `world` is taken and iterated; otherwise the
original container is iterated directly, with a warning exactly when the
copy was attempted and failed. -/
def cursorNextW (dp copyable : Bool) (world : List α) :
    CursorState α → Option α × CursorState α × Bool
  | .fresh =>
    if dp && copyable then
      match world with
      | [] => (none, .closed, false)
      | x :: _ => (some x, .copied world 1, false)
    else
      match world with
      | [] => (none, .closed, dp && !copyable)
      | x :: _ => (some x, .live 1, dp && !copyable)
  | .copied data pos =>
    if h : pos < data.length then
      (some (data.get ⟨pos, h⟩), .copied data (pos + 1), false)
    else (none, .closed, false)
  | .live pos =>
    if h : pos < world.length then
      (some (world.get ⟨pos, h⟩), .live (pos + 1), false)
    else (none, .closed, false)
  | .closed => (none, .closed, false)

/-- `__next__`: if `self.iter is None` create the generator, increment
`state_counter` (before the pull — also when the pull then raises
`StopIteration`), and pull the next element. -/
def next (s : DPState α) : Option α × DPState α × Bool :=
  let cur := s.iter.getD .fresh
  let r := cursorNextW s.deepcopy s.iterable.copyable s.iterable.contents cur
  (r.1, { s with state_counter := s.state_counter + 1, iter := some r.2.1 }, r.2.2)

/-- `save_snapshot`: returns `state_counter`; reads nothing else, writes
nothing. -/
def save_snapshot (s : DPState α) : Nat :=
  s.state_counter

/-- The loop body of `restore_snapshot`: `while state_counter < target:
next(self)`.  Since each `next` increments `state_counter` by exactly one and
the counter starts at 0, the loop makes exactly `target` calls unless a pull
raises `StopIteration`, which aborts the loop (and propagates).  Returns the
final state and the number of elements produced / of exhausted pulls. -/
def replayCount : DPState α → Nat → DPState α × Nat × Nat
  | s, 0 => (s, 0, 0)
  | s, n + 1 =>
    match next s with
    | (some _, s', _) =>
      let r := replayCount s' n
      (r.1, r.2.1 + 1, r.2.2)
    | (none, s', _) => (s', 0, 1)

/-- `restore_snapshot(target_count=None)`: default the target to the current
`state_counter`, reset the counter to 0, then call `next(self)` until the
counter reaches the target.  The existing cursor is NOT discarded: the
replay continues from `self.iter` when one is active. -/
def restore_snapshot (t? : Option Nat) (s : DPState α) : DPState α × Nat × Nat :=
  replayCount { s with state_counter := 0 } (t?.getD s.state_counter)

/-- `restore_snapshot`, keeping only the resulting state. -/
def restoreSt (t? : Option Nat) (s : DPState α) : DPState α :=
  (restore_snapshot t? s).1

/-- `__getstate__`: raises `Exception("")` when `self.iter is not None`;
otherwise returns the attribute dict minus the `iter` key. -/
def getstate (s : DPState α) : Except String (PickledState α) :=
  match s.iter with
  | some _ => .error ""
  | none =>
    .ok { iterable := s.iterable, deepcopy := s.deepcopy,
          state_counter := s.state_counter }

/-- `__setstate__(state)`: `self.__dict__ = state` (every field replaced by
the pickled one), then `self.iter = self.__iter__()` — a generator is created
eagerly, so the cursor field is non-null immediately. -/
def setstate (st : PickledState α) (_s : DPState α) : DPState α :=
  { iterable := st.iterable, deepcopy := st.deepcopy,
    state_counter := st.state_counter, iter := some .fresh }

/-- `__len__`: `len(self.iterable)` — the current length of the original
container when it supports a length query, a `TypeError` otherwise. -/
def len (s : DPState α) : Except String Nat :=
  if s.iterable.sized then .ok s.iterable.contents.length
  else .error "len not supported"

/-- The operations a caller can interleave on one instance.  `save`,
`getst`, `lenq` and `iterq` (a bare `__iter__()` call, a pure traversal
factory) do not change the instance state; `mutate` is the caller mutating
the shared source container in place through its own reference. -/
inductive Op (α : Type) where
  | adv : Op α
  | save : Op α
  | getst : Op α
  | lenq : Op α
  | iterq : Op α
  | restore (t? : Option Nat) : Op α
  | setst (st : PickledState α) : Op α
  | mutate (new : List α) : Op α
  deriving DecidableEq

/-- Whether an operation is `__setstate__`. -/
def Op.isSetst : Op α → Bool
  | .setst _ => true
  | _ => false

/-- Whether an operation is a caller mutation of the source container. -/
def Op.isMutate : Op α → Bool
  | .mutate _ => true
  | _ => false

/-- Apply one operation; also report how many elements were produced through
`__next__` and how many `__next__` calls ended in `StopIteration`. -/
def applyOpC (s : DPState α) : Op α → DPState α × Nat × Nat
  | .adv =>
    match next s with
    | (some _, s', _) => (s', 1, 0)
    | (none, s', _) => (s', 0, 1)
  | .restore t? => restore_snapshot t? s
  | .setst st => (setstate st s, 0, 0)
  | .mutate new => ({ s with iterable := { s.iterable with contents := new } }, 0, 0)
  | _ => (s, 0, 0)

/-- Run a sequence of operations, accumulating the produced / exhausted
counts of every `__next__` call made (directly or inside a restore). -/
def runOps : DPState α → List (Op α) → DPState α × Nat × Nat
  | s, [] => (s, 0, 0)
  | s, o :: ops =>
    let r1 := applyOpC s o
    let r2 := runOps r1.1 ops
    (r2.1, r1.2.1 + r2.2.1, r1.2.2 + r2.2.2)

/-- A full traversal obtained from a bare `__iter__()` call, pulled once per
entry of `worlds`; `worlds` lists the contents of the shared source container
at each successive pull (caller mutation between pulls = adjacent entries
differing).  Collects the produced elements and whether any deepcopy warning
was emitted. -/
def runSchedule (dp copyable : Bool) : CursorState α → List (List α) → List α × Bool
  | _, [] => ([], false)
  | c, w :: ws =>
    let r := cursorNextW dp copyable w c
    let rest := runSchedule dp copyable r.2.1 ws
    (match r.1 with
     | some x => x :: rest.1
     | none => rest.1,
     r.2.2 || rest.2)

/-! ## Helper descriptions of reachable states

After `p` successful pulls (and no caller mutation), the cursor of an
instance is fully determined by the policy flags and `p`: no cursor at all
when `p = 0`, a snapshot cursor when the deep copy was made, a direct cursor
otherwise. -/

/-- The cursor after `p` successful pulls from a fresh start, no mutation. -/
def cursorAfter (it : Iterable α) (dp : Bool) (p : Nat) : Option (CursorState α) :=
  if p = 0 then none
  else some (if dp && it.copyable then .copied it.contents p else .live p)

/-- An instance whose counter is `c` and whose cursor sits after `p`
successful pulls of an unmutated source. -/
def mkSt (it : Iterable α) (dp : Bool) (c p : Nat) : DPState α :=
  { iterable := it, deepcopy := dp, state_counter := c, iter := cursorAfter it dp p }

theorem init_eq_mkSt (it : Iterable α) (dp : Bool) : init it dp = mkSt it dp 0 0 := rfl

/-- One `__next__` on a positioned instance: within bounds it produces the
element at position `p`, moves to `p + 1`, increments the counter, and warns
exactly on a first pull whose deep copy fails. -/
theorem next_mkSt (it : Iterable α) (dp : Bool) (c p : Nat)
    (hp : p < it.contents.length) :
    next (mkSt it dp c p) =
      (it.contents[p]?, mkSt it dp (c + 1) (p + 1),
        dp && !it.copyable && decide (p = 0)) := by
  obtain ⟨cs, cp, sz⟩ := it
  simp only [Iterable.contents] at hp
  cases p with
  | zero =>
    cases cs with
    | nil => simp at hp
    | cons x xs => cases dp <;> cases cp <;>
        simp [next, mkSt, cursorAfter, cursorNextW]
  | succ q =>
    cases dp <;> cases cp <;>
      simp [next, mkSt, cursorAfter, cursorNextW, hp, List.getElem?_eq_getElem]

/-- Running `k` consecutive `advance-one` operations within bounds: every
pull succeeds (`k` produced, none exhausted), the counter and the position
both advance by `k`. -/
theorem runOps_adv_mkSt (it : Iterable α) (dp : Bool) (c p k : Nat)
    (h : p + k ≤ it.contents.length) :
    runOps (mkSt it dp c p) (List.replicate k Op.adv) =
      (mkSt it dp (c + k) (p + k), k, 0) := by
  induction k generalizing c p with
  | zero => simp [runOps]
  | succ n ih =>
    have hp : p < it.contents.length := by omega
    have hrec := ih (c + 1) (p + 1) (by omega)
    have e1 : c + 1 + n = c + (n + 1) := by omega
    have e2 : p + 1 + n = p + (n + 1) := by omega
    simp only [List.replicate_succ, runOps, applyOpC, next_mkSt it dp c p hp,
      List.getElem?_eq_getElem hp, hrec, e1, e2]
    simp [Nat.add_comm]

/-- The replay loop of `restore_snapshot`, run within bounds: `n` elements
are produced, the counter grows by `n`, the cursor advances by `n`. -/
theorem replayCount_mkSt (it : Iterable α) (dp : Bool) (c p n : Nat)
    (h : p + n ≤ it.contents.length) :
    replayCount (mkSt it dp c p) n = (mkSt it dp (c + n) (p + n), n, 0) := by
  induction n generalizing c p with
  | zero => simp [replayCount]
  | succ m ih =>
    have hp : p < it.contents.length := by omega
    have hrec := ih (c + 1) (p + 1) (by omega)
    have e1 : c + 1 + m = c + (m + 1) := by omega
    have e2 : p + 1 + m = p + (m + 1) := by omega
    simp only [replayCount, next_mkSt it dp c p hp,
      List.getElem?_eq_getElem hp, hrec, e1, e2]

/-! ## Counter accounting

`__next__` increments `state_counter` exactly once per call, whether or not
the pull produces an element.  Hence over any stretch of calls the counter
grows by exactly (produced + exhausted). -/

theorem next_state_counter (s : DPState α) :
    (next s).2.1.state_counter = s.state_counter + 1 := rfl

theorem replayCount_state_counter (s : DPState α) (n : Nat) :
    (replayCount s n).1.state_counter =
      s.state_counter + (replayCount s n).2.1 + (replayCount s n).2.2 := by
  induction n generalizing s with
  | zero => simp [replayCount]
  | succ m ih =>
    rcases hn : next s with ⟨res, s', w⟩
    have hc : s'.state_counter = s.state_counter + 1 := by
      have := next_state_counter s; rw [hn] at this; exact this
    cases res with
    | none => simp [replayCount, hn]; omega
    | some x =>
      have := ih s'
      simp [replayCount, hn]; omega

theorem applyOpC_state_counter (s : DPState α) (o : Op α) (h : o.isSetst = false) :
    (applyOpC s o).1.state_counter ≤
      s.state_counter + (applyOpC s o).2.1 + (applyOpC s o).2.2 := by
  cases o with
  | adv =>
    rcases hn : next s with ⟨res, s', w⟩
    have hc : s'.state_counter = s.state_counter + 1 := by
      have := next_state_counter s; rw [hn] at this; exact this
    cases res <;> simp [applyOpC, hn] <;> omega
  | restore t? =>
    simp only [applyOpC, restore_snapshot]
    have := replayCount_state_counter { s with state_counter := 0 }
      (t?.getD s.state_counter)
    simp only [] at this
    omega
  | setst st => simp [Op.isSetst] at h
  | mutate new => simp [applyOpC]
  | save => simp [applyOpC]
  | getst => simp [applyOpC]
  | lenq => simp [applyOpC]
  | iterq => simp [applyOpC]

theorem runOps_state_counter (s : DPState α) (ops : List (Op α))
    (h : ∀ o ∈ ops, o.isSetst = false) :
    (runOps s ops).1.state_counter ≤
      s.state_counter + (runOps s ops).2.1 + (runOps s ops).2.2 := by
  induction ops generalizing s with
  | nil => simp [runOps]
  | cons o ops ih =>
    simp only [runOps]
    have h1 := applyOpC_state_counter s o (h o (by simp))
    have h2 := ih (applyOpC s o).1 (fun o' ho' => h o' (by simp [ho']))
    omega

/-! ## Field preservation -/

theorem next_iterable (s : DPState α) : (next s).2.1.iterable = s.iterable := rfl

theorem next_deepcopy (s : DPState α) : (next s).2.1.deepcopy = s.deepcopy := rfl

theorem replayCount_iterable (s : DPState α) (n : Nat) :
    (replayCount s n).1.iterable = s.iterable := by
  induction n generalizing s with
  | zero => simp [replayCount]
  | succ m ih =>
    rcases hn : next s with ⟨res, s', w⟩
    have hi : s'.iterable = s.iterable := by
      have := next_iterable s; rw [hn] at this; exact this
    cases res with
    | none => simpa [replayCount, hn] using hi
    | some x => simpa [replayCount, hn, ih s'] using hi

theorem applyOpC_iterable (s : DPState α) (o : Op α)
    (h1 : o.isSetst = false) (h2 : o.isMutate = false) :
    (applyOpC s o).1.iterable = s.iterable := by
  cases o with
  | adv =>
    rcases hn : next s with ⟨res, s', w⟩
    have hi : s'.iterable = s.iterable := by
      have := next_iterable s; rw [hn] at this; exact this
    cases res <;> simpa [applyOpC, hn] using hi
  | restore t? => simpa [applyOpC, restore_snapshot] using
      replayCount_iterable { s with state_counter := 0 } (t?.getD s.state_counter)
  | setst st => simp [Op.isSetst] at h1
  | mutate new => simp [Op.isMutate] at h2
  | save => simp [applyOpC]
  | getst => simp [applyOpC]
  | lenq => simp [applyOpC]
  | iterq => simp [applyOpC]

theorem runOps_iterable (s : DPState α) (ops : List (Op α))
    (h : ∀ o ∈ ops, o.isSetst = false ∧ o.isMutate = false) :
    (runOps s ops).1.iterable = s.iterable := by
  induction ops generalizing s with
  | nil => simp [runOps]
  | cons o ops ih =>
    simp only [runOps]
    have h1 := applyOpC_iterable s o (h o (by simp)).1 (h o (by simp)).2
    rw [ih (applyOpC s o).1 (fun o' ho' => h o' (by simp [ho'])), h1]

/-! ## The cursor never returns to `None`

Every `__next__` stores a cursor, `__setstate__` stores one, and no
operation removes one. -/

theorem next_iter_isSome (s : DPState α) : (next s).2.1.iter ≠ none := by
  simp [next]

theorem replayCount_iter_ne (s : DPState α) (n : Nat) (h : s.iter ≠ none) :
    (replayCount s n).1.iter ≠ none := by
  induction n generalizing s with
  | zero => simpa [replayCount] using h
  | succ m ih =>
    rcases hn : next s with ⟨res, s', w⟩
    have hi : s'.iter ≠ none := by
      have := next_iter_isSome s; rw [hn] at this; exact this
    cases res with
    | none => simpa [replayCount, hn] using hi
    | some x => simpa [replayCount, hn] using ih s' hi

theorem applyOpC_iter_ne (s : DPState α) (o : Op α) (h : s.iter ≠ none) :
    (applyOpC s o).1.iter ≠ none := by
  cases o with
  | adv =>
    rcases hn : next s with ⟨res, s', w⟩
    have hi : s'.iter ≠ none := by
      have := next_iter_isSome s; rw [hn] at this; exact this
    cases res <;> simpa [applyOpC, hn] using hi
  | restore t? => simpa [applyOpC, restore_snapshot] using
      replayCount_iter_ne { s with state_counter := 0 } (t?.getD s.state_counter) h
  | setst st => simp [applyOpC, setstate]
  | mutate new => simpa [applyOpC] using h
  | save => simpa [applyOpC] using h
  | getst => simpa [applyOpC] using h
  | lenq => simpa [applyOpC] using h
  | iterq => simpa [applyOpC] using h

theorem runOps_iter_ne (s : DPState α) (ops : List (Op α)) (h : s.iter ≠ none) :
    (runOps s ops).1.iter ≠ none := by
  induction ops generalizing s with
  | nil => simpa [runOps] using h
  | cons o ops ih =>
    simp only [runOps]
    exact ih (applyOpC s o).1 (applyOpC_iter_ne s o h)

theorem getstate_of_iter_ne (s : DPState α) (h : s.iter ≠ none) :
    getstate s = Except.error "" := by
  rcases hs : s.iter with _ | c
  · exact absurd hs h
  · simp [getstate, hs]

/-! ## Schedule runs of a bare traversal -/

/-- One unfolding step of `runSchedule` on a nonempty schedule. -/
theorem runSchedule_cons_eq (dp cp : Bool) (c : CursorState α) (w : List α)
    (ws : List (List α)) :
    runSchedule dp cp c (w :: ws) =
      ((match (cursorNextW dp cp w c).1 with
        | some x => x :: (runSchedule dp cp (cursorNextW dp cp w c).2.1 ws).1
        | none => (runSchedule dp cp (cursorNextW dp cp w c).2.1 ws).1),
       (cursorNextW dp cp w c).2.2 || (runSchedule dp cp (cursorNextW dp cp w c).2.1 ws).2) := rfl

theorem runSchedule_closed (dp cp : Bool) (ws : List (List α)) :
    runSchedule dp cp (.closed : CursorState α) ws = ([], false) := by
  induction ws with
  | nil => rfl
  | cons w ws ih => simp [runSchedule, cursorNextW, ih]

/-- A snapshot cursor is insensitive to the container contents seen at each
later pull: given enough pulls it yields the rest of its snapshot. -/
theorem runSchedule_copied (dp cp : Bool) (data : List α) (p : Nat)
    (ws : List (List α)) (h : data.length ≤ p + ws.length) :
    (runSchedule dp cp (.copied data p) ws).1 = data.drop p := by
  induction ws generalizing p with
  | nil =>
    have : data.drop p = [] := List.drop_eq_nil_of_le (by simpa using h)
    simp [runSchedule, this]
  | cons w ws ih =>
    by_cases hp : p < data.length
    · simp only [runSchedule, cursorNextW, dif_pos hp]
      rw [ih (p + 1) (by simp at h ⊢; omega), List.drop_eq_getElem_cons hp]
      simp
    · have : data.drop p = [] := List.drop_eq_nil_of_le (by omega)
      simp [runSchedule, cursorNextW, dif_neg hp, runSchedule_closed, this]

/-- A direct cursor pulled against an unchanging container yields the rest
of that container. -/
theorem runSchedule_live_const (dp cp : Bool) (S : List α) (p n : Nat)
    (h : S.length ≤ p + n) :
    runSchedule dp cp (.live p) (List.replicate n S) = (S.drop p, false) := by
  induction n generalizing p with
  | zero =>
    have : S.drop p = [] := List.drop_eq_nil_of_le (by omega)
    simp [runSchedule, this]
  | succ m ih =>
    by_cases hp : p < S.length
    · simp only [List.replicate_succ, runSchedule, cursorNextW, dif_pos hp]
      rw [ih (p + 1) (by omega), List.drop_eq_getElem_cons hp]
      simp
    · have : S.drop p = [] := List.drop_eq_nil_of_le (by omega)
      simp [List.replicate_succ, runSchedule, cursorNextW, dif_neg hp,
        runSchedule_closed, this]

/-! ## Claims -/

/-- C1 counterexample: in the spec's own example (source `[1,2,3,4,5]`,
`copy_policy = true`, two advance-one calls yielding 1 then 2, then
`restore_snapshot()` with the defaulted target), `restore_snapshot` does NOT
discard the existing cursor: the replay consumes 3 and 4 from the live
cursor, `progress_count` ends at 2, and the next advance-one yields 5, not 3
as the claim states. -/
theorem restore_example_yields_five :
    (next (init (⟨[1, 2, 3, 4, 5], true, true⟩ : Iterable Nat) true)).1 = some 1
    ∧ (next (next (init (⟨[1, 2, 3, 4, 5], true, true⟩ : Iterable Nat) true)).2.1).1
        = some 2
    ∧ (restoreSt none
        (next (next (init (⟨[1, 2, 3, 4, 5], true, true⟩ : Iterable Nat)
          true)).2.1).2.1).state_counter = 2
    ∧ (next (restoreSt none
        (next (next (init (⟨[1, 2, 3, 4, 5], true, true⟩ : Iterable Nat)
          true)).2.1).2.1)).1 = some 5
    ∧ (next (restoreSt none
        (next (next (init (⟨[1, 2, 3, 4, 5], true, true⟩ : Iterable Nat)
          true)).2.1).2.1)).1 ≠ some 3 := by
  decide

/-- C1 (amended): `restore_snapshot(target)` resets `progress_count` to 0 and
then replays `target` elements via advance-one, but it continues from the
existing cursor when one is active (a fresh traversal starts only when no
cursor exists).  After `k` advance-one calls followed by `restore_snapshot()`
with the defaulted target, `progress_count` is `k` and the cursor sits after
`2k` elements, so the next advance-one yields element `S[2k]`; in the spec's
example (`S = [1,2,3,4,5]`, `k = 2`) the next advance-one yields 5. -/
theorem restore_reuses_cursor (it : Iterable α) (dp : Bool) (k : Nat)
    (h : 2 * k < it.contents.length) :
    restoreSt none (runOps (init it dp) (List.replicate k Op.adv)).1 =
      mkSt it dp k (2 * k)
    ∧ (next (restoreSt none
        (runOps (init it dp) (List.replicate k Op.adv)).1)).1 =
      it.contents[2 * k]? := by
  have hk : 0 + k ≤ it.contents.length := by omega
  have h1 : runOps (init it dp) (List.replicate k Op.adv) =
      (mkSt it dp (0 + k) (0 + k), k, 0) := by
    rw [init_eq_mkSt]; exact runOps_adv_mkSt it dp 0 0 k hk
  have h2 : restoreSt none (mkSt it dp k k) = mkSt it dp k (2 * k) := by
    show (replayCount (mkSt it dp 0 k) k).1 = mkSt it dp k (2 * k)
    rw [replayCount_mkSt it dp 0 k k (by omega)]
    simp [Nat.two_mul]
  have h0 : (0 : Nat) + k = k := by omega
  rw [h1]
  simp only [h0] at h1 ⊢
  refine ⟨h2, ?_⟩
  rw [h2, next_mkSt it dp k (2 * k) h]

/-- C1 witness: the amended claim evaluated on the spec's example. -/
theorem restore_reuses_cursor_witness :
    (next (restoreSt none
        (runOps (init (⟨[1, 2, 3, 4, 5], true, true⟩ : Iterable Nat) true)
          (List.replicate 2 Op.adv)).1)).1 = some 5 :=
  ((restore_reuses_cursor (⟨[1, 2, 3, 4, 5], true, true⟩ : Iterable Nat)
    true 2 (by decide)).2).trans (by decide)

/-- C2 counterexample: `__next__` increments `state_counter` before pulling,
so an advance-one call on an empty source ends in exhaustion having produced
nothing, yet leaves `progress_count = 1 > 0` — the counter exceeds the
number of elements actually produced. -/
theorem counter_exceeds_produced :
    (runOps (init (⟨[], true, true⟩ : Iterable Nat) true) [Op.adv]).1.state_counter = 1
    ∧ (runOps (init (⟨[], true, true⟩ : Iterable Nat) true) [Op.adv]).2.1 = 0 := by
  decide

/-- C2 (amended): along any operation sequence without install-state,
`progress_count` never exceeds the number of advance-one calls made, i.e. the
number of elements actually produced plus the number of advance-one calls
that ended in an exhaustion signal (each such call still increments the
counter, by one). -/
theorem counter_le_produced_plus_exhausted (it : Iterable α) (dp : Bool)
    (ops : List (Op α)) (h : ∀ o ∈ ops, o.isSetst = false) :
    (runOps (init it dp) ops).1.state_counter ≤
      (runOps (init it dp) ops).2.1 + (runOps (init it dp) ops).2.2 := by
  have := runOps_state_counter (init it dp) ops h
  simpa [init] using this

/-- C2 witness: the amended bound on a concrete trace (two advance-one calls
then an exhausting one on a 2-element source). -/
theorem counter_le_produced_plus_exhausted_witness :
    (runOps (init (⟨[1, 2], true, true⟩ : Iterable Nat) true)
      [Op.adv, Op.adv, Op.adv]).1.state_counter ≤
    (runOps (init (⟨[1, 2], true, true⟩ : Iterable Nat) true)
      [Op.adv, Op.adv, Op.adv]).2.1 +
    (runOps (init (⟨[1, 2], true, true⟩ : Iterable Nat) true)
      [Op.adv, Op.adv, Op.adv]).2.2 :=
  counter_le_produced_plus_exhausted _ true _ (by decide)

/-- C3 counterexample: with `S = [7]` (length 1 ≥ k = 1), `restore_snapshot(1)`
on a fresh instance replays the single element, after which the next
advance-one does not return an element `S[1]` — it ends in exhaustion. -/
theorem restore_at_length_exhausts :
    (next (restoreSt (some 1)
      (init (⟨[7], true, true⟩ : Iterable Nat) true))).1 = none := by
  decide

/-- C3 (amended): for `k` strictly below the source length,
`restore_snapshot(k)` immediately after fresh construction (any
`copy_policy`) leaves `progress_count = k` and the cursor positioned after
the first `k` elements, so the next advance-one returns element `S[k]`;
when the length is exactly `k` the replay succeeds but the next advance-one
signals exhaustion instead of returning an element. -/
theorem restore_on_fresh (it : Iterable α) (dp : Bool) (k : Nat)
    (h : k < it.contents.length) :
    restoreSt (some k) (init it dp) = mkSt it dp k k
    ∧ (next (restoreSt (some k) (init it dp))).1 = it.contents[k]? := by
  have h1 : restoreSt (some k) (init it dp) = mkSt it dp k k := by
    show (replayCount (mkSt it dp 0 0) k).1 = mkSt it dp k k
    rw [replayCount_mkSt it dp 0 0 k (by omega)]
    simp
  refine ⟨h1, ?_⟩
  rw [h1, next_mkSt it dp k k h]

/-- C3 witness: the amended claim at `S = [1,2,3]`, `k = 2`: the next
advance-one after the restore yields `S[2] = 3`. -/
theorem restore_on_fresh_witness :
    (next (restoreSt (some 2)
      (init (⟨[1, 2, 3], true, true⟩ : Iterable Nat) true))).1 = some 3 :=
  ((restore_on_fresh (⟨[1, 2, 3], true, true⟩ : Iterable Nat) true 2
    (by decide)).2).trans (by decide)

/-- C4: `__getstate__` fails with the hard error exactly when a cursor is
active — in particular directly after any advance-one call — and when no
cursor is active it returns exactly the remaining instance fields (source,
copy policy, progress counter), the cursor excluded. -/
theorem getstate_iff_no_cursor (s : DPState α) :
    ((∃ e, getstate s = Except.error e) ↔ s.iter ≠ none)
    ∧ (s.iter = none →
        getstate s = Except.ok ⟨s.iterable, s.deepcopy, s.state_counter⟩)
    ∧ getstate (next s).2.1 = Except.error "" := by
  refine ⟨?_, fun hn => by simp [getstate, hn], by simp [getstate, next]⟩
  rcases hs : s.iter with _ | c
  · simp [getstate, hs]
  · simp [getstate, hs]

/-- C4 witness: a fresh instance has no cursor and extracts exactly its
fields; after one advance-one the extraction fails. -/
theorem getstate_iff_no_cursor_witness :
    getstate (init (⟨[1, 2], true, true⟩ : Iterable Nat) true) =
      Except.ok ⟨⟨[1, 2], true, true⟩, true, 0⟩
    ∧ getstate (next (init (⟨[1, 2], true, true⟩ : Iterable Nat) true)).2.1 =
      Except.error "" :=
  ⟨(getstate_iff_no_cursor (init (⟨[1, 2], true, true⟩ : Iterable Nat) true)).2.1 rfl,
   (getstate_iff_no_cursor (init (⟨[1, 2], true, true⟩ : Iterable Nat) true)).2.2⟩

/-- C5: `__setstate__` replaces every instance field with the pickled one and
eagerly creates a cursor (a fresh generator), so the cursor field is non-null
immediately after installation — whereas after plain construction it is
null. -/
theorem setstate_eager_cursor (st : PickledState α) (s : DPState α)
    (it : Iterable α) (dp : Bool) :
    setstate st s = { iterable := st.iterable, deepcopy := st.deepcopy,
                      state_counter := st.state_counter,
                      iter := some CursorState.fresh }
    ∧ (setstate st s).iter ≠ none
    ∧ (init it dp).iter = none :=
  ⟨rfl, by simp [setstate], rfl⟩

/-- C6 counterexample: source `S = [1]`, `copy_policy = true`.  The first
full traversal (the container holds `[1]` at each pull) yields `[1]`.  The
caller then mutates the shared container in place to `[2]` before the second
traversal's first pull; the second traversal deep-copies the container at
its first pull — after the mutation — and yields `[2]`, not `S`.  Isolation
does not cover mutation between traversals. -/
theorem mutation_between_traversals_leaks :
    (runSchedule true true (CursorState.fresh : CursorState Nat) [[1], [1]]).1 = [1]
    ∧ (runSchedule true true (CursorState.fresh : CursorState Nat) [[2], [2]]).1 = [2]
    ∧ (runSchedule true true (CursorState.fresh : CursorState Nat) [[2], [2]]).1
        ≠ [1] := by
  decide

/-- A deep-copying traversal yields the container contents seen at its first
pull, whatever the container holds at the later pulls. -/
theorem traversal_yields_first_world (S : List α) (ws : List (List α))
    (h : S.length ≤ ws.length + 1) :
    (runSchedule true true (CursorState.fresh : CursorState α) (S :: ws)).1 = S := by
  cases S with
  | nil => simp [runSchedule, cursorNextW, runSchedule_closed]
  | cons x xs =>
    have hstep : cursorNextW true true (x :: xs) (.fresh : CursorState α)
        = (some x, .copied (x :: xs) 1, false) := by simp [cursorNextW]
    have hrec := runSchedule_copied true true (x :: xs) 1 ws (by simp at h ⊢; omega)
    simp only [runSchedule, hstep]
    rw [hrec]
    simp

/-- C6 (amended): with `copy_policy = true` and a copyable source, each full
traversal yields exactly the container contents at the moment of its own
first element request; in-place mutation after that moment (i.e. during the
traversal) never leaks in.  Hence two traversals both starting while the
container holds `S` each yield `S`, whatever mutations happen during them —
but mutation between the traversals changes what the second one yields. -/
theorem deepcopy_isolates_during_traversal (S : List α) (ws1 ws2 : List (List α))
    (h1 : S.length ≤ ws1.length + 1) (h2 : S.length ≤ ws2.length + 1) :
    (runSchedule true true (CursorState.fresh : CursorState α) (S :: ws1)).1 = S
    ∧ (runSchedule true true (CursorState.fresh : CursorState α) (S :: ws2)).1 = S :=
  ⟨traversal_yields_first_world S ws1 h1, traversal_yields_first_world S ws2 h2⟩

/-- C6 witness: the amended claim on `S = [1,2,3]` with two different
mid-traversal mutation schedules. -/
theorem deepcopy_isolates_during_traversal_witness :
    (runSchedule true true (CursorState.fresh : CursorState Nat)
      [[1, 2, 3], [9, 9], [7]]).1 = [1, 2, 3]
    ∧ (runSchedule true true (CursorState.fresh : CursorState Nat)
      [[1, 2, 3], [], [0, 0, 0, 0]]).1 = [1, 2, 3] :=
  deepcopy_isolates_during_traversal [1, 2, 3] [[9, 9], [7]] [[], [0, 0, 0, 0]]
    (by decide) (by decide)

/-- C7: when the source is not deep-copyable and `copy_policy = true`, a
traversal emits the non-fatal warning at its first pull and then iterates
the original container directly, yielding its elements in order (the
container unchanged throughout): the duplication failure is recovered
locally, not propagated. -/
theorem noncopyable_warns_and_iterates_source (S : List α) :
    runSchedule true false (CursorState.fresh : CursorState α)
      (S :: List.replicate S.length S) = (S, true) := by
  cases S with
  | nil => simp [runSchedule, cursorNextW, runSchedule_closed]
  | cons x xs =>
    have hstep : cursorNextW true false (x :: xs) (.fresh : CursorState α)
        = (some x, .live 1, true) := by simp [cursorNextW]
    have hrec := runSchedule_live_const true false (x :: xs) 1 (xs.length + 1) (by simp)
    rw [runSchedule_cons_eq, hstep]
    simp [hrec]

/-- C8: from a fresh instance over a source with at least `k` elements, `k`
advance-one calls all succeed (`k` produced, none exhausted) and leave the
instance at counter `k`; `save_snapshot` then returns `k`, and as an
operation it leaves the state untouched (no side effect). -/
theorem save_after_k_advances (it : Iterable α) (dp : Bool) (k : Nat)
    (h : k ≤ it.contents.length) :
    runOps (init it dp) (List.replicate k Op.adv) = (mkSt it dp k k, k, 0)
    ∧ save_snapshot (mkSt it dp k k) = k
    ∧ applyOpC (mkSt it dp k k) Op.save = (mkSt it dp k k, 0, 0) := by
  have h1 := runOps_adv_mkSt it dp 0 0 k (by omega)
  rw [init_eq_mkSt]
  simp only [Nat.zero_add] at h1
  exact ⟨h1, rfl, rfl⟩

/-- C8 witness: three advance-one calls on a 5-element source, then
`save_snapshot` returns 3. -/
theorem save_after_k_advances_witness :
    runOps (init (⟨[1, 2, 3, 4, 5], true, true⟩ : Iterable Nat) true)
      (List.replicate 3 Op.adv)
      = (mkSt (⟨[1, 2, 3, 4, 5], true, true⟩ : Iterable Nat) true 3 3, 3, 0)
    ∧ save_snapshot (mkSt (⟨[1, 2, 3, 4, 5], true, true⟩ : Iterable Nat) true 3 3)
      = 3 :=
  ⟨(save_after_k_advances (⟨[1, 2, 3, 4, 5], true, true⟩ : Iterable Nat) true 3
      (by decide)).1,
   (save_after_k_advances (⟨[1, 2, 3, 4, 5], true, true⟩ : Iterable Nat) true 3
      (by decide)).2.1⟩

/-- C9: `__len__` reports the length of the original wrapped source whenever
the source supports a length query — unchanged by the copy policy and by any
prior operations short of install-state or caller mutation (in particular by
any number of advance-one calls) — and fails with the unsupported-operation
error, with no fallback, when the source supports no length query. -/
theorem len_reports_source_length (it : Iterable α) (dp : Bool) (ops : List (Op α))
    (h : ∀ o ∈ ops, o.isSetst = false ∧ o.isMutate = false) :
    (it.sized = true →
      len (runOps (init it dp) ops).1 = Except.ok it.contents.length)
    ∧ (it.sized = false →
      len (runOps (init it dp) ops).1 = Except.error "len not supported") := by
  have hit : (runOps (init it dp) ops).1.iterable = it :=
    runOps_iterable (init it dp) ops h
  constructor <;> intro hs <;> simp [len, hit, hs]

/-- C9 witness: a wrapper over a 5-element sequence still reports length 5
after two advance-one calls and a save; a wrapper over a source with no
length query fails after an advance-one call. -/
theorem len_reports_source_length_witness :
    len (runOps (init (⟨[1, 2, 3, 4, 5], true, true⟩ : Iterable Nat) true)
      [Op.adv, Op.adv, Op.save]).1 = Except.ok 5
    ∧ len (runOps (init (⟨[1, 2], true, false⟩ : Iterable Nat) false)
      [Op.adv]).1 = Except.error "len not supported" :=
  ⟨(len_reports_source_length (⟨[1, 2, 3, 4, 5], true, true⟩ : Iterable Nat) true
      [Op.adv, Op.adv, Op.save] (by decide)).1 rfl,
   (len_reports_source_length (⟨[1, 2], true, false⟩ : Iterable Nat) false
      [Op.adv] (by decide)).2 rfl⟩

/-- C10: `__setstate__` eagerly installs a cursor, every operation keeps the
cursor field non-null, and therefore `__getstate__` fails with the
active-cursor error at every point after an install-state. -/
theorem getstate_fails_after_setstate (st : PickledState α) (s : DPState α)
    (ops : List (Op α)) :
    (runOps (setstate st s) ops).1.iter ≠ none
    ∧ getstate (runOps (setstate st s) ops).1 = Except.error "" := by
  have h1 : (runOps (setstate st s) ops).1.iter ≠ none :=
    runOps_iter_ne (setstate st s) ops (by simp [setstate])
  exact ⟨h1, getstate_of_iter_ne _ h1⟩

/-- C10 witness: extraction still fails two operations after an
install-state. -/
theorem getstate_fails_after_setstate_witness :
    getstate (runOps (setstate (⟨⟨[1, 2], true, true⟩, true, 2⟩ : PickledState Nat)
      (init (⟨[1, 2], true, true⟩ : Iterable Nat) true))
      [Op.adv, Op.restore none]).1 = Except.error "" :=
  (getstate_fails_after_setstate (⟨⟨[1, 2], true, true⟩, true, 2⟩ : PickledState Nat)
    (init (⟨[1, 2], true, true⟩ : Iterable Nat) true) [Op.adv, Op.restore none]).2

end IterableWrapper
